import Mathlib

/-!
Verification of the temporal feature pipeline in `src/temporal_features.py`
(HeHeHaHa_DataRoyale).

The Python module transforms battle-centric rows into player-centric
timelines and derives streak / tilt / churn features.  This file gives a
shallow embedding of that pipeline as executable Lean functions and proves
(or refutes) the behavioural claims made by the specification.

Modelling conventions:
* a pandas DataFrame of battles is a `List` of `BattleG τ` records, where
  `τ` is the type of the `battleTime` column: `Int` (seconds since epoch)
  models a datetime64 column, `String` models an object ("not yet parsed")
  column;
* missing values (`NaN` / `NaT` / null tags) are `Option.none`;
* real-valued derived columns (`return_gap_hours`, tilt scores,
  `days_since_last_battle`) are modelled exactly with `Rat`;
* a pandas exception is `Except.error msg`;
* `sort_values([player_tag, battleTime])` is modelled with a deterministic
  comparison sort (`List.insertionSort` on the lexicographic order); pandas
  leaves the relative order of exactly-tied rows unspecified, which no claim
  below depends on.
-/

/-- Raw battle record: one row of the battles DataFrame.  Field names follow
the source columns (`winner.tag`, `battleTime`, `winner.startingTrophies`,
...), with `.` replaced by `_`.  `τ` is the type of the `battleTime` cell. -/
structure BattleG (τ : Type) where
  winner_tag : Option String
  loser_tag : Option String
  battleTime : τ
  winner_startingTrophies : Int
  winner_trophyChange : Int
  winner_crowns : Int
  loser_startingTrophies : Int
  loser_trophyChange : Int
  loser_crowns : Int
  gameMode_id : Int
  arena_id : Int
  deriving Repr, DecidableEq

/-- Battles whose `battleTime` column is already datetime-typed. -/
abbrev Battle := BattleG Int

/-- Battles whose `battleTime` column is an unparsed string (dtype object). -/
abbrev RawBattle := BattleG String

/-- One perspective row before the `dropna(subset=[player_tag])` step:
the `player_tag` column may still be null. -/
structure PreRow (τ : Type) where
  player_tag : Option String
  battleTime : τ
  trophies_before : Int
  trophy_change : Int
  crowns : Int
  opponent_trophies : Int
  game_mode : Int
  arena : Int
  outcome : Nat
  deriving Repr, DecidableEq

/-- Timeline row after null-tag filtering (`player_tag` known present). -/
structure TimelineRowG (τ : Type) where
  player_tag : String
  battleTime : τ
  trophies_before : Int
  trophy_change : Int
  crowns : Int
  opponent_trophies : Int
  game_mode : Int
  arena : Int
  outcome : Nat
  deriving Repr, DecidableEq

abbrev TimelineRow := TimelineRowG Int

/-- Winner-perspective projection of a battle (source lines 33-44):
columns are renamed and `outcome` is set to 1. -/
def winnersView (b : BattleG τ) : PreRow τ :=
  { player_tag := b.winner_tag
    battleTime := b.battleTime
    trophies_before := b.winner_startingTrophies
    trophy_change := b.winner_trophyChange
    crowns := b.winner_crowns
    opponent_trophies := b.loser_startingTrophies
    game_mode := b.gameMode_id
    arena := b.arena_id
    outcome := 1 }

/-- Loser-perspective projection of a battle (source lines 47-58):
the opponent-trophies column is cross-mapped from the winner, `outcome` 0. -/
def losersView (b : BattleG τ) : PreRow τ :=
  { player_tag := b.loser_tag
    battleTime := b.battleTime
    trophies_before := b.loser_startingTrophies
    trophy_change := b.loser_trophyChange
    crowns := b.loser_crowns
    opponent_trophies := b.winner_startingTrophies
    game_mode := b.gameMode_id
    arena := b.arena_id
    outcome := 0 }

/-- Model of `dropna(subset=[player_tag])` (source line 64): rows whose
`player_tag` is null are removed; surviving rows carry a plain `String` tag. -/
def dropnaPlayerTag (rows : List (PreRow τ)) : List (TimelineRowG τ) :=
  rows.filterMap (fun r =>
    r.player_tag.map (fun tag =>
      { player_tag := tag
        battleTime := r.battleTime
        trophies_before := r.trophies_before
        trophy_change := r.trophy_change
        crowns := r.crowns
        opponent_trophies := r.opponent_trophies
        game_mode := r.game_mode
        arena := r.arena
        outcome := r.outcome }))

/-- Concatenation of the two perspectives followed by null-tag filtering
(source lines 61-64). -/
def timelineRowsOf (battles : List (BattleG τ)) : List (TimelineRowG τ) :=
  dropnaPlayerTag (battles.map winnersView ++ battles.map losersView)

/-- Executable strict lexicographic order on character lists: the order of
string comparison. -/
def charListLT : List Char → List Char → Bool
  | _, [] => false
  | [], _ :: _ => true
  | a :: as, b :: bs =>
      if a < b then true else if b < a then false else charListLT as bs

/-- Strict lexicographic order on strings, by their character data. -/
def tagLT (a b : String) : Bool := charListLT a.data b.data

/-- Lexicographic (player_tag, battleTime) order used by
`sort_values([player_tag, battleTime])` on a datetime column. -/
def rowLE (a b : TimelineRow) : Prop :=
  tagLT a.player_tag b.player_tag = true ∨
    (a.player_tag = b.player_tag ∧ a.battleTime ≤ b.battleTime)

instance : DecidableRel rowLE := fun a b =>
  inferInstanceAs (Decidable (tagLT a.player_tag b.player_tag = true ∨
    (a.player_tag = b.player_tag ∧ a.battleTime ≤ b.battleTime)))

/-- Lexicographic (player_tag, battleTime) order on rows whose time column is
still a string: pandas sorts the object column by string comparison. -/
def rawRowLE (a b : TimelineRowG String) : Prop :=
  tagLT a.player_tag b.player_tag = true ∨
    (a.player_tag = b.player_tag ∧ tagLT b.battleTime a.battleTime = false)

instance : DecidableRel rawRowLE := fun a b =>
  inferInstanceAs (Decidable (tagLT a.player_tag b.player_tag = true ∨
    (a.player_tag = b.player_tag ∧ tagLT b.battleTime a.battleTime = false)))

/-- Model of `sort_values([player_tag, battleTime])` for datetime rows. -/
def sortTimeline (tl : List TimelineRow) : List TimelineRow :=
  List.insertionSort rowLE tl

/-- Model of `sort_values([player_tag, battleTime])` for string-time rows. -/
def sortRawTimeline (tl : List (TimelineRowG String)) : List (TimelineRowG String) :=
  List.insertionSort rawRowLE tl

/-- Model of `create_player_timeline_from_battles` (source lines 20-75) on a
battles frame whose `battleTime` column is already datetime-typed: build both
perspectives, drop null tags, sort; the `to_datetime` branch is skipped
because the dtype is not object. -/
def create_player_timeline_from_battles (battles : List Battle) : List TimelineRow :=
  sortTimeline (timelineRowsOf battles)

/-- Decimal reading of a character list, `none` on any non-digit. -/
def parseDigitsAux : List Char → Nat → Option Nat
  | [], acc => some acc
  | c :: cs, acc =>
      if 48 ≤ c.toNat ∧ c.toNat ≤ 57 then
        parseDigitsAux cs (acc * 10 + (c.toNat - 48))
      else none

/-- Abstract model of timestamp parsing: a non-empty all-digit string
denotes an instant (epoch seconds); any other value fails to parse. -/
def parseInstant (s : String) : Option Int :=
  match s.data with
  | [] => none
  | c :: cs => (parseDigitsAux (c :: cs) 0).map (fun n => (n : Int))

/-- Model of one cell of `pd.to_datetime` on an object column: a parseable
timestamp string yields its instant; any other value makes pandas raise a
`ValueError` whose message names the offending value. -/
def to_datetime (s : String) : Except String Int :=
  match parseInstant s with
  | some t => Except.ok t
  | none => Except.error ("Unknown datetime string format, unable to parse: " ++ s)

/-- Reinterpretation of a string-time row at a parsed instant. -/
def atParsedTime (r : TimelineRowG String) (t : Int) : TimelineRow :=
  { player_tag := r.player_tag
    battleTime := t
    trophies_before := r.trophies_before
    trophy_change := r.trophy_change
    crowns := r.crowns
    opponent_trophies := r.opponent_trophies
    game_mode := r.game_mode
    arena := r.arena
    outcome := r.outcome }

/-- Conversion of the whole `battleTime` column with `pd.to_datetime`: the
first unparseable value raises; otherwise every row is reinterpreted at its
parsed instant. -/
def parseTimes : List (TimelineRowG String) → Except String (List TimelineRow)
  | [] => Except.ok []
  | r :: rest =>
      match to_datetime r.battleTime with
      | Except.error e => Except.error e
      | Except.ok t =>
          match parseTimes rest with
          | Except.error e => Except.error e
          | Except.ok rows => Except.ok (atParsedTime r t :: rows)

/-- Model of `create_player_timeline_from_battles` (source lines 20-75) on a
battles frame whose `battleTime` column has dtype object: build both
perspectives, drop null tags, sort (by string order), then convert the whole
column with `pd.to_datetime`, which raises on the first unparseable value. -/
def create_player_timeline_from_battles_raw (battles : List RawBattle) :
    Except String (List TimelineRow) :=
  parseTimes (sortRawTimeline (timelineRowsOf battles))

/-- Timeline row augmented with the temporal feature columns added by
`engineer_temporal_features` (source lines 78-168). -/
structure FeatRow where
  player_tag : String
  battleTime : Int
  trophies_before : Int
  trophy_change : Int
  crowns : Int
  opponent_trophies : Int
  game_mode : Int
  arena : Int
  outcome : Nat
  next_battleTime : Option Int
  return_gap_hours : Option Rat
  fast_return_1hr : Bool
  loss_streak : Nat
  win_streak : Nat
  loss_streak_bucket : String
  deriving Repr, DecidableEq

/-- Common shape of the two streak loops (source lines 116-128 and
135-147), run from an arbitrary carried counter: the counter is incremented
when the outcome equals the tracked value `v` and reset to 0 otherwise, and
its value is emitted at every row. -/
def streaksFrom (v cur : Nat) : List Nat → List Nat
  | [] => []
  | o :: rest =>
      (if o = v then cur + 1 else 0) :: streaksFrom v (if o = v then cur + 1 else 0) rest

/-- Model of `calculate_loss_streaks` (source lines 116-128): the loop
tracks `outcome == 0` and starts with `current_streak = 0`. -/
def calculate_loss_streaks (outcomes : List Nat) : List Nat :=
  streaksFrom 0 0 outcomes

/-- Model of `calculate_win_streaks` (source lines 135-147): the loop
tracks `outcome == 1` and starts with `current_streak = 0`. -/
def calculate_win_streaks (outcomes : List Nat) : List Nat :=
  streaksFrom 1 0 outcomes

/-- Model of `bucket_loss_streak` (source lines 154-164). -/
def bucket_loss_streak (streak : Nat) : String :=
  if streak = 0 then "0"
  else if streak ≤ 2 then "1-2"
  else if streak ≤ 5 then "3-5"
  else if streak ≤ 10 then "6-10"
  else "10+"

/-- Per-group feature computation, fused into one pass over a single
player's rows (in order).  The source computes the same columns one at a
time over the grouped frame: `next_battleTime` is `shift(-1)` within the
group (the successor row's time, none at the last row), `return_gap_hours`
is the gap to that successor in hours, `fast_return_1hr` is
`return_gap_hours < 1.0` with the missing case false, and the two streak
columns carry the running counters of `calculate_loss_streaks` /
`calculate_win_streaks`.  Bridging lemmas below prove each projected column
equal to its stand-alone column function. -/
def engineerRows (curLoss curWin : Nat) : List TimelineRow → List FeatRow
  | [] => []
  | r :: rest =>
      let next : Option Int :=
        match rest with
        | [] => none
        | s :: _ => some s.battleTime
      let gap : Option Rat := next.map (fun t => ((t - r.battleTime : Int) : Rat) / 3600)
      let fast : Bool :=
        match gap with
        | none => false
        | some g => decide (g < 1)
      let ls : Nat := if r.outcome = 0 then curLoss + 1 else 0
      let ws : Nat := if r.outcome = 1 then curWin + 1 else 0
      { player_tag := r.player_tag
        battleTime := r.battleTime
        trophies_before := r.trophies_before
        trophy_change := r.trophy_change
        crowns := r.crowns
        opponent_trophies := r.opponent_trophies
        game_mode := r.game_mode
        arena := r.arena
        outcome := r.outcome
        next_battleTime := next
        return_gap_hours := gap
        fast_return_1hr := fast
        loss_streak := ls
        win_streak := ws
        loss_streak_bucket := bucket_loss_streak ls } :: engineerRows ls ws rest

/-- Feature computation over one player's group, counters started at 0. -/
def engineerGroup (rows : List TimelineRow) : List FeatRow :=
  engineerRows 0 0 rows

/-- Distinct player tags of a timeline, as used by `groupby(player_tag)`:
each group collects every row carrying that tag, in row order. -/
def playerKeys (tl : List TimelineRow) : List String :=
  (tl.map (fun r => r.player_tag)).dedup

/-- Column computation of `engineer_temporal_features` on a non-empty
timeline (source lines 96-168): re-sort by (player, time), then compute
every feature column per `groupby(player_tag)` group.  Each group of the
sorted frame is exactly the sublist of rows carrying that tag. -/
def engineeredRows (tl : List TimelineRow) : List FeatRow :=
  (playerKeys (sortTimeline tl)).flatMap
    (fun p => engineerGroup ((sortTimeline tl).filter (fun r => r.player_tag == p)))

/-- Model of `engineer_temporal_features` (source lines 78-168).  On a
non-empty timeline it returns the augmented rows of `engineeredRows`.  On an
empty timeline the `groupby.apply` of the streak loop has zero groups, so
pandas hands back an empty multi-column DataFrame instead of a Series, and
the single-column assignment `df[loss_streak] = ...` (source line 130)
raises a `ValueError`; the stage does not return an empty frame. -/
def engineer_temporal_features (tl : List TimelineRow) :
    Except String (List FeatRow) :=
  if tl.isEmpty then
    Except.error
      "Cannot set a DataFrame with multiple columns to the single column loss_streak"
  else
    Except.ok (engineeredRows tl)

/-- The rows of the augmented timeline (the ok-payload of
`engineer_temporal_features`) belonging to one player, in order: the
player's partition referred to by the specification. -/
def playerPartition (tl : List TimelineRow) (p : String) : List FeatRow :=
  (engineeredRows tl).filter (fun r => r.player_tag == p)

/-- Transcription of the body of `calculate_tilt` (source lines 184-202):
filter the group to losses, return 0.0 when none; keep losses that have a
successor battle, return 0.0 when none; otherwise the fraction of those
followed by a fast return. -/
def calculate_tilt (group : List FeatRow) : Rat :=
  let losses := group.filter (fun r => r.outcome == 0)
  if losses.isEmpty then 0
  else
    let losses_with_next := losses.filter (fun r => r.next_battleTime.isSome)
    if losses_with_next.isEmpty then 0
    else
      ((losses_with_next.countP (fun r => r.fast_return_1hr)) : Rat) /
        ((losses_with_next.length : Nat) : Rat)

/-- Per-player tilt pairs on a non-empty timeline: one
`(player_tag, behavioral_tilt_score)` pair per `groupby(player_tag)` group
of the augmented timeline. -/
def tiltPairs (tl : List FeatRow) : List (String × Rat) :=
  ((tl.map (fun r => r.player_tag)).dedup).map
    (fun p => (p, calculate_tilt (tl.filter (fun r => r.player_tag == p))))

/-- Model of `calculate_behavioral_tilt_per_player` (source lines 171-210).
On a non-empty timeline it returns the per-group tilt pairs.  On an empty
timeline the zero-group `groupby.apply` keeps the frame's 15 columns
(plus the materialised index after `reset_index()`), so assigning the
two replacement column names (source line 208) raises
`ValueError: Length mismatch`; the stage does not return an empty frame. -/
def calculate_behavioral_tilt_per_player (tl : List FeatRow) :
    Except String (List (String × Rat)) :=
  if tl.isEmpty then
    Except.error
      "Length mismatch: Expected axis has 16 elements, new values have 2 elements"
  else
    Except.ok (tiltPairs tl)

/-- Python-dict insertion: a repeated key keeps its first position but takes
the latest value. -/
def pyDictInsert (d : List (String × List String)) (k : String) (v : List String) :
    List (String × List String) :=
  if d.any (fun kv => kv.1 == k) then
    d.map (fun kv => if kv.1 == k then (k, v) else kv)
  else
    d ++ [(k, v)]

/-- Evaluation of a Python dict literal given as a key/value list. -/
def pyDict (entries : List (String × List String)) : List (String × List String) :=
  entries.foldl (fun d kv => pyDictInsert d kv.1 kv.2) []

/-- The `.agg(...)` argument exactly as written in the source (lines
234-251): note the key `battleTime` appears twice (`count` near the top,
`[min, max]` at the bottom), so the Python dict literal resolves to a single
`battleTime` entry holding `[min, max]`. -/
def aggSpecEntries : List (String × List String) :=
  [("battleTime", ["count"]),
   ("outcome", ["mean"]),
   ("trophy_change", ["sum"]),
   ("trophies_before", ["first", "last"]),
   ("return_gap_hours", ["mean", "median", "std"]),
   ("fast_return_1hr", ["mean"]),
   ("loss_streak", ["max"]),
   ("win_streak", ["max"]),
   ("battleTime", ["min", "max"])]

/-- Number of columns of the aggregated frame after `reset_index()`:
`player_tag` plus one column per (key, aggregation-function) pair of the
resolved dict. -/
def aggOutputColumnCount : Nat :=
  1 + ((pyDict aggSpecEntries).map (fun kv => kv.2.length)).sum

/-- The 14 replacement column names assigned by the source (lines 254-269). -/
def renamedAggColumns : List String :=
  ["player_tag", "match_count", "win_rate", "total_trophy_change",
   "starting_trophies", "ending_trophies", "avg_return_gap_hours",
   "median_return_gap_hours", "std_return_gap_hours", "fast_return_rate",
   "max_loss_streak", "max_win_streak", "first_battle", "last_battle"]

/-- Player-level aggregate row.  Only the columns consumed by the claims
under verification (`define_churn` reads `last_battle`) are carried. -/
structure PlayerAgg where
  player_tag : String
  last_battle : Int
  deriving Repr, DecidableEq

/-- Model of `aggregate_to_player_level` (source lines 213-284): count rows
per player, keep players with at least `min_matches` rows, aggregate the
filtered frame per player, then assign the 14 replacement column names.
Assigning `df.columns` a list whose length differs from the number of
columns makes pandas raise `ValueError: Length mismatch`; the success branch
would carry the per-player aggregates under the new names. -/
def aggregate_to_player_level (tl : List FeatRow) (min_matches : Nat) :
    Except String (List PlayerAgg) :=
  let keys := (tl.map (fun r => r.player_tag)).dedup
  let active := keys.filter
    (fun p => min_matches ≤ tl.countP (fun r => r.player_tag == p))
  let filtered := tl.filter (fun r => active.contains r.player_tag)
  if aggOutputColumnCount = renamedAggColumns.length then
    Except.ok
      (((filtered.map (fun r => r.player_tag)).dedup).map
        (fun p =>
          { player_tag := p
            last_battle :=
              (((filtered.filter (fun r => r.player_tag == p)).map
                  (fun r => r.battleTime)).max?).getD 0 }))
  else
    Except.error
      ("Length mismatch: Expected axis has " ++ toString aggOutputColumnCount ++
        " elements, new values have " ++ toString renamedAggColumns.length ++
        " elements")

/-- Player-level row after `define_churn` added its two columns. -/
structure ChurnRow where
  player_tag : String
  last_battle : Int
  days_since_last_battle : Rat
  churned : Nat
  deriving Repr, DecidableEq

/-- Per-player step of `define_churn` (source lines 347-352): the row keeps
its columns and gains `days_since_last_battle` (the distance to the global
dataset end, in days) and the boolean-as-int `churned` column. -/
def churnLabel (dataset_end churn_threshold_days : Int) (p : PlayerAgg) : ChurnRow :=
  { player_tag := p.player_tag
    last_battle := p.last_battle
    days_since_last_battle := ((dataset_end - p.last_battle : Int) : Rat) / 86400
    churned :=
      if (churn_threshold_days : Rat)
          < ((dataset_end - p.last_battle : Int) : Rat) / 86400
        then 1 else 0 }

/-- Model of `define_churn` (source lines 325-354): `dataset_end` is the
global maximum of `last_battle`; each player gets
`days_since_last_battle = (dataset_end - last_battle)` in days and
`churned = 1` exactly when that count strictly exceeds the threshold.  On an
empty frame there is no row to label. -/
def define_churn (player_aggregated : List PlayerAgg) (churn_threshold_days : Int) :
    List ChurnRow :=
  match (player_aggregated.map (fun p => p.last_battle)).max? with
  | none => []
  | some dataset_end =>
      player_aggregated.map (churnLabel dataset_end churn_threshold_days)

/-- The full pipeline of the specification on a datetime-typed battles
frame: timeline building, temporal features, player-level aggregation,
churn labelling.  An exception in a stage propagates. -/
def full_pipeline (battles : List Battle) (min_matches : Nat)
    (churn_threshold_days : Int) : Except String (List ChurnRow) :=
  match engineer_temporal_features (create_player_timeline_from_battles battles) with
  | Except.error e => Except.error e
  | Except.ok feats =>
      match aggregate_to_player_level feats min_matches with
      | Except.error e => Except.error e
      | Except.ok agg => Except.ok (define_churn agg churn_threshold_days)

/-! ### Specification-side notions -/

/-- Count of consecutive rows with outcome `v` ending at the last row of
`l`: the length of the maximal all-`v` suffix. -/
def suffixRun (v : Nat) (l : List Nat) : Nat :=
  (l.reverse.takeWhile (fun o => o == v)).length

/-! ### Streak lemmas -/

theorem takeWhile_append_singleton (p : Nat → Bool) (xs : List Nat) (a : Nat) :
    (xs ++ [a]).takeWhile p =
      if xs.all p then xs ++ (if p a then [a] else []) else xs.takeWhile p := by
  induction xs with
  | nil => by_cases ha : p a <;> simp [List.takeWhile, ha]
  | cons x xs ih =>
      by_cases hx : p x
      · by_cases hall : xs.all p <;>
          simp [List.takeWhile_cons, hx, List.all_cons, hall, ih]
      · simp [List.takeWhile_cons, hx, List.all_cons]

theorem suffixRun_cons (v o : Nat) (m : List Nat) :
    suffixRun v (o :: m) =
      if m.all (fun x => x == v) then
        (if o == v then m.length + 1 else m.length)
      else suffixRun v m := by
  unfold suffixRun
  rw [List.reverse_cons, takeWhile_append_singleton, List.all_reverse]
  by_cases hall : m.all (fun x => x == v)
  · by_cases ho : o == v <;> simp [hall, ho]
  · simp [hall]

theorem suffixRun_of_all (v : Nat) (m : List Nat)
    (h : m.all (fun x => x == v) = true) : suffixRun v m = m.length := by
  induction m with
  | nil => rfl
  | cons o m ih =>
      rw [List.all_cons, Bool.and_eq_true] at h
      rw [suffixRun_cons, if_pos h.2, if_pos h.1, List.length_cons]

theorem streaksFrom_length (v cur : Nat) (l : List Nat) :
    (streaksFrom v cur l).length = l.length := by
  induction l generalizing cur with
  | nil => rfl
  | cons o rest ih => simp [streaksFrom, ih]

theorem streaksFrom_get (v : Nat) (l : List Nat) :
    ∀ (cur i : Nat) (h : i < (streaksFrom v cur l).length),
      (streaksFrom v cur l).get ⟨i, h⟩ =
        if (l.take (i + 1)).all (fun o => o == v) then cur + i + 1
        else suffixRun v (l.take (i + 1)) := by
  induction l with
  | nil => intro cur i h; simp [streaksFrom] at h
  | cons o rest ih =>
      intro cur i h
      cases i with
      | zero =>
          by_cases ho : o = v
          · simp [streaksFrom, ho, suffixRun]
          · have hbeq : (o == v) = false := by simp [ho]
            simp [streaksFrom, ho, suffixRun, List.takeWhile, hbeq]
      | succ j =>
          have h2 : j < (streaksFrom v (if o = v then cur + 1 else 0) rest).length := by
            have := h
            simp only [streaksFrom, List.length_cons] at this
            omega
          have hgetcons :
              (streaksFrom v cur (o :: rest)).get ⟨j + 1, h⟩ =
                (streaksFrom v (if o = v then cur + 1 else 0) rest).get ⟨j, h2⟩ := by
            simp [streaksFrom]
          rw [hgetcons, ih (if o = v then cur + 1 else 0) j h2]
          have hjlen : j + 1 ≤ rest.length := by
            rw [streaksFrom_length] at h2; omega
          have hlentake : (rest.take (j + 1)).length = j + 1 := by
            rw [List.length_take]; omega
          have htake : (o :: rest).take (j + 1 + 1) = o :: rest.take (j + 1) := rfl
          rw [htake]
          by_cases hall : (rest.take (j + 1)).all (fun x => x == v)
          · by_cases ho : o = v
            · have hoall : ((o :: rest.take (j + 1)).all (fun x => x == v)) = true := by
                simp [List.all_cons, hall, ho]
              rw [if_pos hall, if_pos hoall, if_pos ho]
              omega
            · have hoall : ((o :: rest.take (j + 1)).all (fun x => x == v)) = false := by
                simp [List.all_cons, ho]
              have hoallneg : ¬ (((o :: rest.take (j + 1)).all (fun x => x == v)) = true) := by
                simp [hoall]
              have hbeq : ¬ ((o == v) = true) := by simp [ho]
              rw [if_pos hall, if_neg hoallneg, if_neg ho]
              rw [suffixRun_cons, if_pos hall, if_neg hbeq, hlentake]
              omega
          · have hoall : ((o :: rest.take (j + 1)).all (fun x => x == v)) = false := by
              simp only [List.all_cons]
              rw [Bool.not_eq_true] at hall
              simp [hall]
            have hoallneg : ¬ (((o :: rest.take (j + 1)).all (fun x => x == v)) = true) := by
              simp [hoall]
            rw [if_neg hall, if_neg hoallneg]
            rw [Bool.not_eq_true] at hall
            rw [suffixRun_cons, if_neg (by simp [hall] : ¬ ((rest.take (j + 1)).all (fun x => x == v) = true))]

/-! ### Feature-engine bridging lemmas: each projected column of the fused
per-group pass equals the stand-alone column computation of the source. -/

theorem engineerRows_length (lc wc : Nat) (rows : List TimelineRow) :
    (engineerRows lc wc rows).length = rows.length := by
  induction rows generalizing lc wc with
  | nil => rfl
  | cons r rest ih => simp [engineerRows, ih]

theorem engineerRows_map_tag (lc wc : Nat) (rows : List TimelineRow) :
    (engineerRows lc wc rows).map (fun fr => fr.player_tag)
      = rows.map (fun r => r.player_tag) := by
  induction rows generalizing lc wc with
  | nil => rfl
  | cons r rest ih => simp [engineerRows, ih]

theorem engineerRows_map_outcome (lc wc : Nat) (rows : List TimelineRow) :
    (engineerRows lc wc rows).map (fun fr => fr.outcome)
      = rows.map (fun r => r.outcome) := by
  induction rows generalizing lc wc with
  | nil => rfl
  | cons r rest ih => simp [engineerRows, ih]

theorem engineerRows_map_loss (lc wc : Nat) (rows : List TimelineRow) :
    (engineerRows lc wc rows).map (fun fr => fr.loss_streak)
      = streaksFrom 0 lc (rows.map (fun r => r.outcome)) := by
  induction rows generalizing lc wc with
  | nil => rfl
  | cons r rest ih => simp [engineerRows, streaksFrom, ih]

theorem engineerRows_map_win (lc wc : Nat) (rows : List TimelineRow) :
    (engineerRows lc wc rows).map (fun fr => fr.win_streak)
      = streaksFrom 1 wc (rows.map (fun r => r.outcome)) := by
  induction rows generalizing lc wc with
  | nil => rfl
  | cons r rest ih => simp [engineerRows, streaksFrom, ih]

theorem engineerRows_fast_iff (lc wc : Nat) (rows : List TimelineRow) :
    ∀ fr ∈ engineerRows lc wc rows,
      (fr.fast_return_1hr = true ↔
        ∃ g, fr.return_gap_hours = some g ∧ g < 1) := by
  induction rows generalizing lc wc with
  | nil => intro fr hfr; simp [engineerRows] at hfr
  | cons r rest ih =>
      intro fr hfr
      simp only [engineerRows, List.mem_cons] at hfr
      rcases hfr with hfr | hfr
      · subst hfr
        cases rest with
        | nil => simp
        | cons s rest2 => simp [decide_eq_true_iff]
      · exact ih _ _ fr hfr

theorem getLast?_cons_of_ne_nil {α : Type} (a : α) (l : List α) (h : l ≠ []) :
    (a :: l).getLast? = l.getLast? := by
  cases l with
  | nil => exact absurd rfl h
  | cons b m => exact List.getLast?_cons_cons

theorem engineerRows_getLast? (lc wc : Nat) (rows : List TimelineRow) :
    ∀ fr, (engineerRows lc wc rows).getLast? = some fr →
      fr.next_battleTime = none ∧ fr.fast_return_1hr = false := by
  induction rows generalizing lc wc with
  | nil => intro fr hfr; simp [engineerRows] at hfr
  | cons r rest ih =>
      intro fr hfr
      cases rest with
      | nil =>
          simp only [engineerRows, List.getLast?_singleton, Option.some_inj] at hfr
          subst hfr
          exact ⟨rfl, rfl⟩
      | cons s rest2 =>
          have hne : engineerRows (if r.outcome = 0 then lc + 1 else 0)
              (if r.outcome = 1 then wc + 1 else 0) (s :: rest2) ≠ [] := by
            simp [engineerRows]
          rw [show engineerRows lc wc (r :: s :: rest2)
                = _ :: engineerRows (if r.outcome = 0 then lc + 1 else 0)
                    (if r.outcome = 1 then wc + 1 else 0) (s :: rest2) from rfl,
              getLast?_cons_of_ne_nil _ _ hne] at hfr
          exact ih _ _ fr hfr

theorem filter_engineerRows_uniform (q p : String) :
    ∀ (lc wc : Nat) (rows : List TimelineRow), (∀ r ∈ rows, r.player_tag = q) →
      (engineerRows lc wc rows).filter (fun fr => fr.player_tag == p)
        = if q = p then engineerRows lc wc rows else [] := by
  intro lc wc rows
  induction rows generalizing lc wc with
  | nil => intro _; simp [engineerRows]
  | cons r rest ih =>
      intro huni
      have htag : r.player_tag = q := huni r (List.mem_cons_self r rest)
      have hrest : ∀ x ∈ rest, x.player_tag = q :=
        fun x hx => huni x (List.mem_cons_of_mem r hx)
      by_cases hqp : q = p
      · subst hqp
        simp [engineerRows, List.filter_cons, htag, ih _ _ hrest]
      · simp [engineerRows, List.filter_cons, htag, hqp, ih _ _ hrest]

theorem filter_engineerGroup_uniform (q p : String) (rows : List TimelineRow)
    (huni : ∀ r ∈ rows, r.player_tag = q) :
    (engineerGroup rows).filter (fun fr => fr.player_tag == p)
      = if q = p then engineerGroup rows else [] :=
  filter_engineerRows_uniform q p 0 0 rows huni

theorem mem_filter_tag (sorted : List TimelineRow) (q : String) :
    ∀ r ∈ sorted.filter (fun r => r.player_tag == q), r.player_tag = q := by
  intro r hr
  have := List.of_mem_filter hr
  simpa using this

theorem filter_flatMap_groups_nil (sorted : List TimelineRow) (p : String) :
    ∀ (keys : List String), (∀ q ∈ keys, q ≠ p) →
      (keys.flatMap
          (fun q => engineerGroup (sorted.filter (fun r => r.player_tag == q)))).filter
          (fun fr => fr.player_tag == p) = [] := by
  intro keys
  induction keys with
  | nil => intro _; simp
  | cons q keys ih =>
      intro hall
      rw [List.flatMap_cons, List.filter_append]
      rw [filter_engineerGroup_uniform q p _ (mem_filter_tag sorted q),
          if_neg (hall q (List.mem_cons_self q keys)), List.nil_append]
      exact ih (fun x hx => hall x (List.mem_cons_of_mem q hx))

theorem filter_flatMap_groups (sorted : List TimelineRow) (p : String) :
    ∀ (keys : List String), keys.Nodup →
      (p ∉ keys → sorted.filter (fun r => r.player_tag == p) = []) →
      (keys.flatMap
          (fun q => engineerGroup (sorted.filter (fun r => r.player_tag == q)))).filter
          (fun fr => fr.player_tag == p)
        = engineerGroup (sorted.filter (fun r => r.player_tag == p)) := by
  intro keys
  induction keys with
  | nil =>
      intro _ hmem
      rw [hmem (by simp)]
      simp [engineerGroup, engineerRows]
  | cons q keys ih =>
      intro hnd hmem
      rw [List.flatMap_cons, List.filter_append]
      rw [filter_engineerGroup_uniform q p _ (mem_filter_tag sorted q)]
      by_cases hqp : q = p
      · subst hqp
        rw [if_pos rfl]
        have hnp : ∀ x ∈ keys, x ≠ q := by
          intro x hx hxq
          subst hxq
          exact (List.nodup_cons.mp hnd).1 hx
        rw [filter_flatMap_groups_nil sorted q keys hnp, List.append_nil]
      · rw [if_neg hqp, List.nil_append]
        apply ih (List.nodup_cons.mp hnd).2
        intro hp
        refine hmem ?_
        intro hmem2
        rcases List.mem_cons.mp hmem2 with h1 | h2
        · exact hqp h1.symm
        · exact hp h2

/-- The rows of one player in the engineered output are exactly the fused
per-group pass run on that player's group of the sorted timeline: pandas
`groupby` semantics for the model. -/
theorem playerPartition_eq (tl : List TimelineRow) (p : String) :
    playerPartition tl p
      = engineerGroup ((sortTimeline tl).filter (fun r => r.player_tag == p)) := by
  unfold playerPartition engineeredRows playerKeys
  apply filter_flatMap_groups
  · exact List.nodup_dedup _
  · intro hp
    rw [List.filter_eq_nil_iff]
    intro r hr hb
    rw [List.mem_dedup] at hp
    exact hp (List.mem_map.mpr ⟨r, hr, by simpa using hb⟩)

/-- Bridge: the loss-streak column of the fused pass is exactly
`calculate_loss_streaks` applied to the group's outcome column. -/
theorem engineerGroup_map_loss (rows : List TimelineRow) :
    (engineerGroup rows).map (fun fr => fr.loss_streak)
      = calculate_loss_streaks (rows.map (fun r => r.outcome)) :=
  engineerRows_map_loss 0 0 rows

/-- Bridge: the win-streak column of the fused pass is exactly
`calculate_win_streaks` applied to the group's outcome column. -/
theorem engineerGroup_map_win (rows : List TimelineRow) :
    (engineerGroup rows).map (fun fr => fr.win_streak)
      = calculate_win_streaks (rows.map (fun r => r.outcome)) :=
  engineerRows_map_win 0 0 rows

theorem engineerGroup_map_outcome (rows : List TimelineRow) :
    (engineerGroup rows).map (fun fr => fr.outcome)
      = rows.map (fun r => r.outcome) :=
  engineerRows_map_outcome 0 0 rows

/-- The value the streak loop emits at row `i` is the length of the maximal
all-`v` suffix of the first `i + 1` outcomes. -/
theorem streaks_get_suffixRun (v : Nat) (l : List Nat) (i : Nat)
    (h : i < (streaksFrom v 0 l).length) :
    (streaksFrom v 0 l).get ⟨i, h⟩ = suffixRun v (l.take (i + 1)) := by
  rw [streaksFrom_get]
  by_cases hall : (l.take (i + 1)).all (fun o => o == v)
  · rw [if_pos hall, suffixRun_of_all v _ hall]
    have hlen : (l.take (i + 1)).length = i + 1 := by
      rw [List.length_take]
      have h2 := h
      rw [streaksFrom_length] at h2
      omega
    omega
  · rw [if_neg hall]

theorem engineerGroup_loss_get (rows : List TimelineRow) (i : Nat)
    (h : i < (engineerGroup rows).length) :
    ((engineerGroup rows).get ⟨i, h⟩).loss_streak
      = suffixRun 0 ((rows.map (fun r => r.outcome)).take (i + 1)) := by
  have hmap : i < ((engineerGroup rows).map (fun fr => fr.loss_streak)).length := by
    simpa using h
  have hb : i < (streaksFrom 0 0 (rows.map (fun r => r.outcome))).length := by
    rw [streaksFrom_length, List.length_map]
    have h2 := h
    unfold engineerGroup at h2
    rw [engineerRows_length] at h2
    exact h2
  have e1 : ((engineerGroup rows).map (fun fr => fr.loss_streak))[i]
      = ((engineerGroup rows)[i]).loss_streak := List.getElem_map _
  have e2 : ((engineerGroup rows).map (fun fr => fr.loss_streak))[i]
      = (streaksFrom 0 0 (rows.map (fun r => r.outcome)))[i] :=
    List.getElem_of_eq (engineerGroup_map_loss rows) hmap
  have e3 := streaks_get_suffixRun 0 (rows.map (fun r => r.outcome)) i hb
  rw [List.get_eq_getElem] at e3 ⊢
  rw [← e1, e2]
  exact e3

theorem engineerGroup_win_get (rows : List TimelineRow) (i : Nat)
    (h : i < (engineerGroup rows).length) :
    ((engineerGroup rows).get ⟨i, h⟩).win_streak
      = suffixRun 1 ((rows.map (fun r => r.outcome)).take (i + 1)) := by
  have hmap : i < ((engineerGroup rows).map (fun fr => fr.win_streak)).length := by
    simpa using h
  have hb : i < (streaksFrom 1 0 (rows.map (fun r => r.outcome))).length := by
    rw [streaksFrom_length, List.length_map]
    have h2 := h
    unfold engineerGroup at h2
    rw [engineerRows_length] at h2
    exact h2
  have e1 : ((engineerGroup rows).map (fun fr => fr.win_streak))[i]
      = ((engineerGroup rows)[i]).win_streak := List.getElem_map _
  have e2 : ((engineerGroup rows).map (fun fr => fr.win_streak))[i]
      = (streaksFrom 1 0 (rows.map (fun r => r.outcome)))[i] :=
    List.getElem_of_eq (engineerGroup_map_win rows) hmap
  have e3 := streaks_get_suffixRun 1 (rows.map (fun r => r.outcome)) i hb
  rw [List.get_eq_getElem] at e3 ⊢
  rw [← e1, e2]
  exact e3

/-! ### Concrete sample data (used to instantiate theorems with hypotheses) -/

/-- One sample timeline row. -/
def exRow (p : String) (t : Int) (o : Nat) : TimelineRow :=
  { player_tag := p
    battleTime := t
    trophies_before := 5000
    trophy_change := 30
    crowns := 2
    opponent_trophies := 4990
    game_mode := 72000006
    arena := 54000050
    outcome := o }

/-- Two battles between players A and B: A wins at t = 0 and loses at
t = 1800 (the example of the specification). -/
def exTimeline : List TimelineRow :=
  [exRow "A" 0 1, exRow "A" 1800 0, exRow "B" 0 0, exRow "B" 1800 1]

/-- The same timeline with an extra row of an unrelated player C. -/
def exTimelineB : List TimelineRow :=
  exTimeline ++ [exRow "C" 100 1]

/-- A timeline in which every player has exactly one row. -/
def exTimelineOne : List TimelineRow :=
  [exRow "A" 0 1, exRow "B" 1800 0]

/-! ### Claim C1 -/

/-- C1: in every player partition of the engineered (time-sorted) timeline,
the loss-streak value at row `i` equals the number of consecutive rows with
outcome = loss (0) ending at row `i` — so it grows by 1 on each loss and is
0 at a win — and the win-streak value is the dual count of consecutive
outcome = win (1) rows; moreover the partition is a function of that
player's rows of the sorted timeline alone, so streak values of one player
never depend on another player's rows. -/
theorem streaks_count_trailing_outcomes_per_player
    (tl tl2 : List TimelineRow) (p : String) :
    (∀ (i : Nat) (h : i < (playerPartition tl p).length),
        ((playerPartition tl p).get ⟨i, h⟩).loss_streak
          = suffixRun 0
              (((playerPartition tl p).map (fun fr => fr.outcome)).take (i + 1))
      ∧ ((playerPartition tl p).get ⟨i, h⟩).win_streak
          = suffixRun 1
              (((playerPartition tl p).map (fun fr => fr.outcome)).take (i + 1)))
    ∧ ((sortTimeline tl).filter (fun r => r.player_tag == p)
          = (sortTimeline tl2).filter (fun r => r.player_tag == p)
        → playerPartition tl p = playerPartition tl2 p) := by
  constructor
  · intro i h
    constructor
    · revert h
      rw [playerPartition_eq tl p]
      intro h
      rw [engineerGroup_loss_get _ i h, ← engineerGroup_map_outcome]
    · revert h
      rw [playerPartition_eq tl p]
      intro h
      rw [engineerGroup_win_get _ i h, ← engineerGroup_map_outcome]
  · intro hf
    rw [playerPartition_eq tl p, playerPartition_eq tl2 p, hf]

/-- Witness for C1: on the two-battle example, row 1 of player A's
partition (the loss at t = 1800) carries the streak counts of the claim,
and appending a row of player C leaves A's partition unchanged. -/
theorem streaks_count_trailing_outcomes_per_player_witness :
    (((playerPartition exTimeline "A").get ⟨1, by decide⟩).loss_streak
        = suffixRun 0
            (((playerPartition exTimeline "A").map (fun fr => fr.outcome)).take 2))
    ∧ playerPartition exTimeline "A" = playerPartition exTimelineB "A" :=
  ⟨((streaks_count_trailing_outcomes_per_player exTimeline exTimelineB "A").1
      1 (by decide)).1,
   (streaks_count_trailing_outcomes_per_player exTimeline exTimelineB "A").2
      (by decide)⟩

/-! ### Claim C6 -/

/-- C6: in the timeline returned by `engineer_temporal_features`,
`fast_return_1hr` is true exactly when `return_gap_hours` is present and
strictly below 1.0 (absence counts as not fast); and the last row of every
player's time-ordered partition has `next_battleTime` absent and
`fast_return_1hr` false. -/
theorem fast_return_iff_present_gap_below_one_hour
    (tl : List TimelineRow) (p : String) :
    (∀ rows, engineer_temporal_features tl = Except.ok rows →
      ∀ fr ∈ rows,
        (fr.fast_return_1hr = true ↔ ∃ g, fr.return_gap_hours = some g ∧ g < 1))
    ∧ (∀ fr, (playerPartition tl p).getLast? = some fr →
        fr.next_battleTime = none ∧ fr.fast_return_1hr = false) := by
  constructor
  · intro rows hok fr hfr
    unfold engineer_temporal_features at hok
    by_cases he : tl.isEmpty
    · rw [if_pos he] at hok
      exact absurd hok (by simp)
    · rw [if_neg he] at hok
      have hrows : rows = engineeredRows tl := by
        injection hok with h2
        exact h2.symm
      subst hrows
      unfold engineeredRows at hfr
      rw [List.mem_flatMap] at hfr
      rcases hfr with ⟨q, _, hfr⟩
      exact engineerRows_fast_iff 0 0 _ fr hfr
  · intro fr hlast
    rw [playerPartition_eq] at hlast
    exact engineerRows_getLast? 0 0 _ fr hlast

/-- The engineered form of the single row of player A in `exTimelineOne`. -/
def exFeatA : FeatRow :=
  { player_tag := "A"
    battleTime := 0
    trophies_before := 5000
    trophy_change := 30
    crowns := 2
    opponent_trophies := 4990
    game_mode := 72000006
    arena := 54000050
    outcome := 1
    next_battleTime := none
    return_gap_hours := none
    fast_return_1hr := false
    loss_streak := 0
    win_streak := 1
    loss_streak_bucket := "0" }

/-- The engineered form of the single row of player B in `exTimelineOne`. -/
def exFeatB0 : FeatRow :=
  { player_tag := "B"
    battleTime := 1800
    trophies_before := 5000
    trophy_change := 30
    crowns := 2
    opponent_trophies := 4990
    game_mode := 72000006
    arena := 54000050
    outcome := 0
    next_battleTime := none
    return_gap_hours := none
    fast_return_1hr := false
    loss_streak := 1
    win_streak := 0
    loss_streak_bucket := "1-2" }

/-- Witness for C6: player A's single row in `exTimelineOne` is the last of
its partition, has no successor, and is not a fast return. -/
theorem fast_return_iff_present_gap_below_one_hour_witness :
    (exFeatA.fast_return_1hr = true ↔
        ∃ g, exFeatA.return_gap_hours = some g ∧ g < 1)
    ∧ (exFeatA.next_battleTime = none ∧ exFeatA.fast_return_1hr = false) :=
  ⟨(fast_return_iff_present_gap_below_one_hour exTimelineOne "A").1
      [exFeatA, exFeatB0] (by rfl) exFeatA (by decide),
   (fast_return_iff_present_gap_below_one_hour exTimelineOne "A").2
      exFeatA (by decide)⟩

/-! ### Claim C3 -/

/-- The set L of the claim: a player's rows with outcome = loss that have a
successor battle. -/
def lossesWithNext (tl : List FeatRow) (p : String) : List FeatRow :=
  ((tl.filter (fun r => r.player_tag == p)).filter
      (fun r => r.outcome == 0)).filter
    (fun r => r.next_battleTime.isSome)

/-- C3: every `(player, score)` pair produced by
`calculate_behavioral_tilt_per_player` satisfies: the score is 0.0 when the
player's set L (loss rows with a successor) is empty, is the fraction of L
flagged as fast returns otherwise, and always lies in [0, 1]. -/
theorem tilt_zero_or_fast_fraction_in_unit_interval
    (tl : List FeatRow) (pairs : List (String × Rat)) (p : String) (s : Rat)
    (hok : calculate_behavioral_tilt_per_player tl = Except.ok pairs)
    (hmem : (p, s) ∈ pairs) :
    (lossesWithNext tl p = [] → s = 0)
    ∧ (lossesWithNext tl p ≠ [] →
        s = (((lossesWithNext tl p).countP (fun r => r.fast_return_1hr)) : Rat)
              / (((lossesWithNext tl p).length : Nat) : Rat))
    ∧ 0 ≤ s ∧ s ≤ 1 := by
  unfold calculate_behavioral_tilt_per_player at hok
  by_cases he : tl.isEmpty
  · rw [if_pos he] at hok
    exact absurd hok (by simp)
  rw [if_neg he] at hok
  have hpairs : pairs = tiltPairs tl := by
    injection hok with h2
    exact h2.symm
  subst hpairs
  unfold tiltPairs at hmem
  rw [List.mem_map] at hmem
  rcases hmem with ⟨q, _, heq⟩
  rw [Prod.ext_iff] at heq
  obtain ⟨hqp, hs⟩ := heq
  dsimp at hqp hs
  subst hqp
  have hgroup : calculate_tilt (tl.filter (fun r => r.player_tag == q)) = s := hs
  have hL : lossesWithNext tl q
      = ((tl.filter (fun r => r.player_tag == q)).filter
          (fun r => r.outcome == 0)).filter (fun r => r.next_battleTime.isSome) := rfl
  unfold calculate_tilt at hgroup
  by_cases hloss :
      ((tl.filter (fun r => r.player_tag == q)).filter
        (fun r => r.outcome == 0)).isEmpty
  · -- no loss rows at all: L is empty and the score is 0
    rw [if_pos hloss] at hgroup
    have hLnil : lossesWithNext tl q = [] := by
      rw [hL, List.isEmpty_iff.mp hloss]
      rfl
    refine ⟨fun _ => hgroup.symm, fun hne => absurd hLnil hne, ?_, ?_⟩
    · rw [← hgroup]
    · rw [← hgroup]
      norm_num
  · rw [if_neg hloss] at hgroup
    by_cases hlwn :
        (((tl.filter (fun r => r.player_tag == q)).filter
            (fun r => r.outcome == 0)).filter
          (fun r => r.next_battleTime.isSome)).isEmpty
    · rw [if_pos hlwn] at hgroup
      have hLnil : lossesWithNext tl q = [] := by
        rw [hL]
        exact List.isEmpty_iff.mp hlwn
      refine ⟨fun _ => hgroup.symm, fun hne => absurd hLnil hne, ?_, ?_⟩
      · rw [← hgroup]
      · rw [← hgroup]
        norm_num
    · rw [if_neg hlwn] at hgroup
      have hLne : lossesWithNext tl q ≠ [] := by
        rw [hL]
        intro hcon
        rw [hcon] at hlwn
        exact hlwn rfl
      have hlenpos : 0 < (((lossesWithNext tl q).length : Nat) : Rat) := by
        have : 0 < (lossesWithNext tl q).length :=
          List.length_pos.mpr hLne
        exact_mod_cast this
      have hval : s
          = (((lossesWithNext tl q).countP (fun r => r.fast_return_1hr)) : Rat)
              / (((lossesWithNext tl q).length : Nat) : Rat) := by
        rw [← hgroup, hL]
      refine ⟨fun hnil => absurd hnil hLne, fun _ => hval, ?_, ?_⟩
      · rw [hval]
        apply div_nonneg
        · exact_mod_cast Nat.zero_le _
        · exact le_of_lt hlenpos
      · rw [hval]
        rw [div_le_one hlenpos]
        exact_mod_cast List.countP_le_length _

/-- A loss row of player B that is followed by a fast return. -/
def exFeatL : FeatRow :=
  { player_tag := "B"
    battleTime := 0
    trophies_before := 5000
    trophy_change := -30
    crowns := 0
    opponent_trophies := 4990
    game_mode := 72000006
    arena := 54000050
    outcome := 0
    next_battleTime := some 1800
    return_gap_hours := some (1 / 2)
    fast_return_1hr := true
    loss_streak := 1
    win_streak := 0
    loss_streak_bucket := "1-2" }

/-- The final (win) row of player B. -/
def exFeatW : FeatRow :=
  { player_tag := "B"
    battleTime := 1800
    trophies_before := 4970
    trophy_change := 30
    crowns := 2
    opponent_trophies := 5000
    game_mode := 72000006
    arena := 54000050
    outcome := 1
    next_battleTime := none
    return_gap_hours := none
    fast_return_1hr := false
    loss_streak := 0
    win_streak := 1
    loss_streak_bucket := "0" }

/-- An augmented timeline holding the two rows of player B. -/
def exTiltTl : List FeatRow := [exFeatL, exFeatW]

/-- Witness for C3: on `exTiltTl`, player B's single loss has a successor
and a fast return, so the tilt score is 1 and lies in [0, 1]. -/
theorem tilt_zero_or_fast_fraction_in_unit_interval_witness :
    ((lossesWithNext exTiltTl "B" = [] → (1 : Rat) = 0)
    ∧ (lossesWithNext exTiltTl "B" ≠ [] →
        (1 : Rat)
          = (((lossesWithNext exTiltTl "B").countP
                (fun r => r.fast_return_1hr)) : Rat)
              / ((((lossesWithNext exTiltTl "B").length : Nat)) : Rat))
    ∧ (0 : Rat) ≤ 1 ∧ (1 : Rat) ≤ 1) :=
  tilt_zero_or_fast_fraction_in_unit_interval exTiltTl [("B", 1)] "B" 1
    (by norm_num [calculate_behavioral_tilt_per_player, tiltPairs,
      calculate_tilt, exTiltTl, exFeatL, exFeatW, List.dedup, List.pwFilter])
    (by norm_num)

/-! ### Claim C5 -/

/-- C5: every row produced by `define_churn` is labelled against the global
dataset end — the maximum `last_battle` over all players — with
`days_since_last_battle = (dataset_end - last_battle) / 86400` seconds
(i.e. in days) and `churned = 1` exactly when that count strictly exceeds
the threshold, 0 otherwise. -/
theorem churn_relative_to_global_dataset_end
    (df : List PlayerAgg) (ct : Int) (r : ChurnRow)
    (hr : r ∈ define_churn df ct) :
    ∃ dend, (∃ p ∈ df, p.last_battle = dend)
      ∧ (∀ p ∈ df, p.last_battle ≤ dend)
      ∧ r.days_since_last_battle = ((dend - r.last_battle : Int) : Rat) / 86400
      ∧ ((ct : Rat) < r.days_since_last_battle → r.churned = 1)
      ∧ (¬ (ct : Rat) < r.days_since_last_battle → r.churned = 0) := by
  unfold define_churn at hr
  cases hmax : (df.map (fun p => p.last_battle)).max? with
  | none => rw [hmax] at hr; simp at hr
  | some dend =>
      rw [hmax] at hr
      rcases List.mem_map.mp hr with ⟨p, hp, hpr⟩
      refine ⟨dend, ?_, ?_, ?_, ?_, ?_⟩
      · have hmem : dend ∈ df.map (fun p => p.last_battle) :=
          List.max?_mem (fun a b => max_choice a b) hmax
        rcases List.mem_map.mp hmem with ⟨p2, hp2, he2⟩
        exact ⟨p2, hp2, he2⟩
      · intro p2 hp2
        have hle : ∀ b ∈ df.map (fun p => p.last_battle), b ≤ dend :=
          (List.max?_le_iff (fun a b c => max_le_iff) hmax).mp (le_refl dend)
        exact hle p2.last_battle (List.mem_map.mpr ⟨p2, hp2, rfl⟩)
      · rw [← hpr]; rfl
      · intro hlt
        rw [← hpr] at hlt ⊢
        unfold churnLabel at hlt ⊢
        dsimp at hlt ⊢
        rw [if_pos hlt]
      · intro hlt
        rw [← hpr] at hlt ⊢
        unfold churnLabel at hlt ⊢
        dsimp at hlt ⊢
        rw [if_neg hlt]

/-- Sample player aggregates: A last seen 2024-01-10, B last seen
2024-01-01 (epoch seconds), the example of the specification. -/
def exAggA : PlayerAgg := { player_tag := "A", last_battle := 1704844800 }

def exAggB : PlayerAgg := { player_tag := "B", last_battle := 1704067200 }

/-- The churn row the example expects for B: 9 days stale, churned. -/
def exChurnB : ChurnRow :=
  { player_tag := "B"
    last_battle := 1704067200
    days_since_last_battle := 9
    churned := 1 }

/-- Witness for C5: with threshold 7 days, player B of the sample data is
labelled days_since_last_battle = 9, churned = 1, against dataset end
2024-01-10. -/
theorem churn_relative_to_global_dataset_end_witness :
    ∃ dend, (∃ p ∈ [exAggA, exAggB], p.last_battle = dend)
      ∧ (∀ p ∈ [exAggA, exAggB], p.last_battle ≤ dend)
      ∧ exChurnB.days_since_last_battle
          = ((dend - exChurnB.last_battle : Int) : Rat) / 86400
      ∧ ((7 : Int) < exChurnB.days_since_last_battle → exChurnB.churned = 1)
      ∧ (¬ ((7 : Int) : Rat) < exChurnB.days_since_last_battle →
          exChurnB.churned = 0) :=
  churn_relative_to_global_dataset_end [exAggA, exAggB] 7 exChurnB
    (by norm_num [define_churn, churnLabel, List.max?, exAggA, exAggB, exChurnB])

/-! ### Claim C10 -/

/-- C10: on a non-empty aggregate frame and a non-negative threshold,
`define_churn` always leaves at least one player unlabelled as churned: the
player whose `last_battle` attains the dataset maximum sits 0 days from the
dataset end, and 0 never strictly exceeds a non-negative threshold. -/
theorem churn_never_marks_most_recent_player
    (df : List PlayerAgg) (ct : Int) (hne : df ≠ []) (hct : 0 ≤ ct) :
    ∃ r ∈ define_churn df ct, r.churned = 0 := by
  cases hmax : (df.map (fun p => p.last_battle)).max? with
  | none =>
      rw [List.max?_eq_none_iff] at hmax
      rw [List.map_eq_nil_iff] at hmax
      exact absurd hmax hne
  | some dend =>
      have hmem : dend ∈ df.map (fun p => p.last_battle) :=
        List.max?_mem (fun a b => max_choice a b) hmax
      rcases List.mem_map.mp hmem with ⟨p, hp, he⟩
      refine ⟨churnLabel dend ct p, ?_, ?_⟩
      · unfold define_churn
        rw [hmax]
        exact List.mem_map.mpr ⟨p, hp, rfl⟩
      · unfold churnLabel
        dsimp
        rw [he, sub_self]
        norm_num
        exact_mod_cast hct

/-- Witness for C10: on the sample aggregates with threshold 7, some player
is not churned. -/
theorem churn_never_marks_most_recent_player_witness :
    ∃ r ∈ define_churn [exAggA, exAggB] 7, r.churned = 0 :=
  churn_never_marks_most_recent_player [exAggA, exAggB] 7
    (by decide) (by decide)

/-! ### Claim C4 -/

theorem dropnaPlayerTag_length {τ : Type} (rows : List (PreRow τ)) :
    (dropnaPlayerTag rows).length
      = rows.countP (fun r => r.player_tag.isSome) := by
  induction rows with
  | nil => rfl
  | cons r rest ih =>
      cases htag : r.player_tag with
      | none =>
          simp [dropnaPlayerTag, List.filterMap_cons, htag, List.countP_cons]
          exact ih
      | some tag =>
          simp [dropnaPlayerTag, List.filterMap_cons, htag, List.countP_cons]
          exact ih

/-- C4 (amended form): the timeline size equals the number of battles with
a present winner tag plus the number of battles with a present loser tag —
each perspective row is dropped independently by the null-tag filter. -/
theorem timeline_size_counts_present_tags (battles : List Battle) :
    (create_player_timeline_from_battles battles).length
      = battles.countP (fun b => b.winner_tag.isSome)
        + battles.countP (fun b => b.loser_tag.isSome) := by
  calc (create_player_timeline_from_battles battles).length
      = (timelineRowsOf battles).length :=
        (List.perm_insertionSort rowLE _).length_eq
    _ = (dropnaPlayerTag (battles.map winnersView)).length
        + (dropnaPlayerTag (battles.map losersView)).length := by
        unfold timelineRowsOf dropnaPlayerTag
        rw [List.filterMap_append, List.length_append]
    _ = battles.countP (fun b => b.winner_tag.isSome)
        + battles.countP (fun b => b.loser_tag.isSome) := by
        rw [dropnaPlayerTag_length, dropnaPlayerTag_length,
          List.countP_map, List.countP_map]
        rfl

/-- A battle with a present winner tag but a null loser tag. -/
def exBattleHalf : Battle :=
  { winner_tag := some "A"
    loser_tag := none
    battleTime := 0
    winner_startingTrophies := 5000
    winner_trophyChange := 30
    winner_crowns := 2
    loser_startingTrophies := 4990
    loser_trophyChange := -30
    loser_crowns := 0
    gameMode_id := 72000006
    arena_id := 54000050 }

/-- Counterexample to C4 as stated: on a single battle whose loser tag is
null, the timeline keeps the winner-perspective row, so its size is 1 while
2 x (battles with both tags present) is 0. -/
theorem timeline_size_not_twice_both_present :
    ¬ ((create_player_timeline_from_battles [exBattleHalf]).length
        = 2 * ([exBattleHalf].countP
            (fun b => b.winner_tag.isSome && b.loser_tag.isSome))) := by
  decide

/-! ### Claim C2 -/

/-- C2 (code bug): the `.agg` dict literal of the source contains the key
`battleTime` twice, so Python resolves it to 12 aggregate columns; with
`player_tag` the aggregated frame has 13 columns, while the source then
assigns a list of 14 replacement names — pandas raises
`ValueError: Length mismatch` on every input, instead of returning the
per-player aggregates the claim describes. -/
theorem aggregate_always_raises_length_mismatch :
    aggOutputColumnCount = 13 ∧ renamedAggColumns.length = 14
    ∧ ∀ (tl : List FeatRow) (mm : Nat),
        aggregate_to_player_level tl mm
          = Except.error
              "Length mismatch: Expected axis has 13 elements, new values have 14 elements" :=
  ⟨rfl, rfl, fun _ _ => rfl⟩

/-! ### Claim C7 -/

/-- C7 (code bug): on an empty battle collection the timeline builder and
the churn labeller return empty outputs, but the temporal feature engine
(zero-group `groupby.apply` followed by a single-column assignment), the
tilt calculation (zero-group apply followed by a two-name column rename)
and the player-level aggregation (the 13-column/14-name rename) each raise
a `ValueError`, so no stage past the timeline builder runs empty-to-empty
without error. -/
theorem empty_input_three_stages_raise :
    create_player_timeline_from_battles [] = []
    ∧ (∃ e, engineer_temporal_features [] = Except.error e)
    ∧ (∃ e, calculate_behavioral_tilt_per_player [] = Except.error e)
    ∧ (∃ e, aggregate_to_player_level [] 10 = Except.error e)
    ∧ define_churn [] 7 = [] :=
  ⟨rfl, ⟨_, rfl⟩, ⟨_, rfl⟩, ⟨_, rfl⟩, rfl⟩

/-! ### Claim C9 -/

/-- C9: the full pipeline is a pure function of the battle collection and
the two thresholds: equal inputs give identical outputs (including the
raised error, identical on both runs). -/
theorem full_pipeline_deterministic (b1 b2 : List Battle) (mm : Nat) (ct : Int)
    (h : b1 = b2) :
    full_pipeline b1 mm ct = full_pipeline b2 mm ct := by
  rw [h]

/-- Witness for C9 at a concrete battle list and thresholds. -/
theorem full_pipeline_deterministic_witness :
    full_pipeline [exBattleHalf] 10 7 = full_pipeline [exBattleHalf] 10 7 :=
  full_pipeline_deterministic [exBattleHalf] [exBattleHalf] 10 7 rfl

/-! ### Claim C8 -/

theorem parseTimes_error (l : List (TimelineRowG String))
    (h : ∃ r ∈ l, (to_datetime r.battleTime).isOk = false) :
    ∃ v, parseTimes l
        = Except.error ("Unknown datetime string format, unable to parse: " ++ v)
      ∧ ∃ r ∈ l, r.battleTime = v ∧ (to_datetime v).isOk = false := by
  induction l with
  | nil =>
      rcases h with ⟨r, hr, _⟩
      exact absurd hr (List.not_mem_nil r)
  | cons x xs ih =>
      cases hx : to_datetime x.battleTime with
      | error e =>
          have he : e = "Unknown datetime string format, unable to parse: "
              ++ x.battleTime := by
            unfold to_datetime at hx
            cases hp : parseInstant x.battleTime with
            | some t => rw [hp] at hx; simp at hx
            | none => rw [hp] at hx; simp at hx; exact hx.symm
          have hfail : (to_datetime x.battleTime).isOk = false := by
            rw [hx]; rfl
          refine ⟨x.battleTime, ?_,
            x, List.mem_cons_self x xs, rfl, hfail⟩
          rw [show parseTimes (x :: xs)
                = match to_datetime x.battleTime with
                  | Except.error e => Except.error e
                  | Except.ok t =>
                      match parseTimes xs with
                      | Except.error e => Except.error e
                      | Except.ok rows => Except.ok (atParsedTime x t :: rows)
              from rfl, hx, he]
      | ok t =>
          have h2 : ∃ r ∈ xs, (to_datetime r.battleTime).isOk = false := by
            rcases h with ⟨r, hr, hfail⟩
            rcases List.mem_cons.mp hr with heq | hmem
            · subst heq
              rw [hx] at hfail
              simp [Except.isOk, Except.toBool] at hfail
            · exact ⟨r, hmem, hfail⟩
          rcases ih h2 with ⟨v, hmap, r, hr, hv, hfail⟩
          refine ⟨v, ?_, r, List.mem_cons_of_mem x hr, hv, hfail⟩
          rw [show parseTimes (x :: xs)
                = match to_datetime x.battleTime with
                  | Except.error e => Except.error e
                  | Except.ok t =>
                      match parseTimes xs with
                      | Except.error e => Except.error e
                      | Except.ok rows => Except.ok (atParsedTime x t :: rows)
              from rfl, hx, hmap]

/-- C8 (amended form): whenever some row that survives the null-tag filter
has an unparseable timestamp, `create_player_timeline_from_battles` on an
object-typed time column fails with the parse error naming an offending
value, instead of returning a timeline. -/
theorem raw_timeline_parse_failure_names_value (battles : List RawBattle)
    (h : ∃ r ∈ timelineRowsOf battles, (to_datetime r.battleTime).isOk = false) :
    ∃ v, create_player_timeline_from_battles_raw battles
        = Except.error ("Unknown datetime string format, unable to parse: " ++ v)
      ∧ ∃ r ∈ timelineRowsOf battles, r.battleTime = v
          ∧ (to_datetime v).isOk = false := by
  unfold create_player_timeline_from_battles_raw
  have hperm : ∀ r : TimelineRowG String,
      r ∈ sortRawTimeline (timelineRowsOf battles)
        ↔ r ∈ timelineRowsOf battles :=
    fun r => (List.perm_insertionSort rawRowLE _).mem_iff
  have h2 : ∃ r ∈ sortRawTimeline (timelineRowsOf battles),
      (to_datetime r.battleTime).isOk = false := by
    rcases h with ⟨r, hr, hfail⟩
    exact ⟨r, (hperm r).mpr hr, hfail⟩
  rcases parseTimes_error _ h2 with ⟨v, hmap, r, hr, hv, hfail⟩
  exact ⟨v, hmap, r, (hperm r).mp hr, hv, hfail⟩

/-- A battle whose timestamp is unparseable and whose tags are both null. -/
def exBattleNoTags : RawBattle :=
  { winner_tag := none
    loser_tag := none
    battleTime := "not-a-date"
    winner_startingTrophies := 5000
    winner_trophyChange := 30
    winner_crowns := 2
    loser_startingTrophies := 4990
    loser_trophyChange := -30
    loser_crowns := 0
    gameMode_id := 72000006
    arena_id := 54000050 }

/-- Counterexample to C8 as stated: this input contains a timestamp value
that cannot be parsed, yet the timeline builder returns a (empty) result
instead of failing — both perspective rows are dropped by the null-tag
filter before `to_datetime` runs. -/
theorem unparseable_time_without_tags_returns_ok :
    (∃ b ∈ [exBattleNoTags], (to_datetime b.battleTime).isOk = false)
    ∧ create_player_timeline_from_battles_raw [exBattleNoTags]
        = Except.ok [] :=
  ⟨⟨exBattleNoTags, by decide, by decide⟩, rfl⟩

/-- The same unparseable battle with the winner tag present. -/
def exBattleBadTime : RawBattle :=
  { winner_tag := some "A"
    loser_tag := none
    battleTime := "not-a-date"
    winner_startingTrophies := 5000
    winner_trophyChange := 30
    winner_crowns := 2
    loser_startingTrophies := 4990
    loser_trophyChange := -30
    loser_crowns := 0
    gameMode_id := 72000006
    arena_id := 54000050 }

/-- Witness for the amended C8: with a surviving row whose timestamp is
unparseable, the builder fails and the error names an offending value. -/
theorem raw_timeline_parse_failure_names_value_witness :
    ∃ v, create_player_timeline_from_battles_raw [exBattleBadTime]
        = Except.error ("Unknown datetime string format, unable to parse: " ++ v)
      ∧ ∃ r ∈ timelineRowsOf [exBattleBadTime], r.battleTime = v
          ∧ (to_datetime v).isOk = false :=
  raw_timeline_parse_failure_names_value [exBattleBadTime] (by decide)
